import Mathlib

/-!
Shallow embedding of the kaamiki activity-tracking daemon.

The embedding follows `kaamiki/protocols.py` (`BabyMonitorProtocol.activate`,
lines 220-280) and `kaamiki/utils/logger.py` (`Neo.__call__`, lines 62-68).

Modelling conventions:
* Timestamps are abstract integers.  `now()` (from `kaamiki/utils/common.py`,
  absent from the sources) is modelled by recording, in each poll, the clock
  values the loop would read: `tStop` for the `stopped = now()` call on
  line 244 and `tReset` for the `started = now()` call on line 266.
  `(stopped - started).total_seconds()` becomes integer subtraction.
* The platform adapter dispatch `self._active_url.get(self._os, ...)` is an
  explicit function parameter `g : String → Option String × Option String`.
* `self._csv.write` (the `CSVDataWriter` of `kaamiki/utils/common.py`, absent
  from the sources) is modelled per the spec as appending one row, or raising
  the contention failure (`PermissionError`) caught on line 264; the poll
  field `writeOk` records which of the two happens.
* The outer resilience loop (lines 229-280) is modelled by `supervise` over a
  list of inner runs, each ending in either a cancellation
  (`KeyboardInterrupt`) or an unhandled fault (`Exception`).
-/

namespace Kaamiki

/-- Python truthiness of an optional string: `None` and `""` are falsy.
Mirrors the `window and program` test on line 243 of `protocols.py`. -/
abbrev truthy (o : Option String) : Prop := o.getD "" ≠ ""

/-- One persisted CSV row, in the column order of `self._headers`
(lines 91-93) as written by `self._csv.write(...)` on lines 255-263. -/
structure Row where
  window : Option String
  program : Option String
  url : Option String
  domain : Option String
  started : Int
  stopped : Int
  spent : Int
  days : Nat
  hours : Nat
  minutes : Nat
  seconds : Nat
  deriving DecidableEq, Repr

/-- The tracker's mutable state inside `activate`: the attributes
`self._window`, `self._program`, `self._url`, `self._domain` together with
the function-local variables `url`, `domain` (which persist across cycles
and across restarts of the inner loop) and the local `started`. -/
structure TState where
  window : Option String
  program : Option String
  url : Option String
  domain : Option String
  lurl : Option String
  ldomain : Option String
  started : Int
  deriving DecidableEq, Repr

/-- What one poll cycle observes: the window/program pair returned by the
active-window adapter, the clock values read at lines 244 (`tStop`) and 266
(`tReset`), and whether the CSV append succeeds (`writeOk = false` means the
write raises the contention `PermissionError` caught on line 264). -/
structure Poll where
  window : Option String
  program : Option String
  tStop : Int
  tReset : Int
  writeOk : Bool
  deriving DecidableEq, Repr

/-- Modelled from the spec: `seconds_to_datetime` lives in
`kaamiki/utils/common.py`, which is absent from the sources.  Per §3 of the
spec it decomposes a non-negative whole number of seconds into
`(days, hours, minutes, seconds)` such that
`days*86400 + hours*3600 + minutes*60 + seconds` reconstructs the input. -/
def secondsToDatetime (n : Nat) : Nat × Nat × Nat × Nat :=
  (n / 86400, n % 86400 / 3600, n % 3600 / 60, n % 60)

/-- One iteration of the inner polling loop (`protocols.py` lines 232-273),
minus the sleep.  Returns the rows handed to the recorder this cycle
(zero or one) and the updated tracker state. -/
def step (g : String → Option String × Option String) (st : TState)
    (p : Poll) : List Row × TState :=
  if truthy p.window ∧ truthy p.program ∧ st.window ≠ p.window then
    let stopped := p.tStop
    let spent := stopped - st.started
    if spent = 0 then
      ([], { st with window := p.window, program := p.program,
                     url := st.lurl, domain := st.ldomain })
    else
      let ts := secondsToDatetime spent.toNat
      let u := g (p.program.getD "")
      let row : Row :=
        { window := st.window, program := st.program, url := st.url,
          domain := st.domain, started := st.started, stopped := stopped,
          spent := spent, days := ts.1, hours := ts.2.1,
          minutes := ts.2.2.1, seconds := ts.2.2.2 }
      ((if p.writeOk then [row] else []),
       { window := p.window, program := p.program, url := u.1,
         domain := u.2, lurl := u.1, ldomain := u.2, started := p.tReset })
  else
    ([], st)

/-- The inner polling loop run over a finite list of observed polls,
accumulating the rows handed to the recorder. -/
def runInner (g : String → Option String × Option String) :
    TState → List Poll → List Row × TState
  | st, [] => ([], st)
  | st, p :: ps =>
    let s := step g st p
    let rest := runInner g s.2 ps
    (s.1 ++ rest.1, rest.2)

/-- The tracker state as initialised on lines 223-224 of `activate`:
all observation fields empty.  (`started` is (re)assigned at the top of
each supervised run, line 231.) -/
def initState : TState :=
  { window := none, program := none, url := none, domain := none,
    lurl := none, ldomain := none, started := 0 }

/-- The fixed cooldown pause `time.sleep(5.0)` in the `finally` block on
line 280 of `protocols.py`. -/
def cooldownPause : Int := 5

/-- How one supervised inner run ends: an explicit cancellation
(`KeyboardInterrupt`, line 274) or any other unhandled fault
(`Exception`, line 277). -/
inductive Outcome where
  | cancel : Outcome
  | fault : Outcome
  deriving DecidableEq, Repr

/-- One iteration of the outer resilience loop: the clock value read by
`started = now()` on line 231, the polls the inner loop processes before it
is interrupted, and how it is interrupted. -/
structure InnerRun where
  t0 : Int
  polls : List Poll
  outcome : Outcome
  deriving DecidableEq, Repr

/-- Status of the supervised loop after consuming a finite trace: still
running, or the process exited with the given status code. -/
inductive SupResult where
  | running : SupResult
  | exited : Nat → SupResult
  deriving DecidableEq, Repr

/-- Aggregate result of the outer loop over a finite trace: rows handed to
the recorder, final tracker state, loop status, and the total time spent in
the `finally: time.sleep(5.0)` pauses. -/
structure SupOut where
  rows : List Row
  state : TState
  result : SupResult
  pause : Int
  deriving DecidableEq, Repr

/-- The outer resilience loop (`protocols.py` lines 229-280).  Each run
re-reads `started = now()` (line 231) and processes its polls from the
state carried over from before; a `KeyboardInterrupt` logs a warning and
exits with status 0 (lines 274-276), any other exception is logged and the
loop continues (lines 277-278); either way the `finally` block sleeps for
`cooldownPause` (line 280).  The tracker state is NOT re-initialised on
restart: lines 223-224 execute only once, before the outer loop. -/
def supervise (g : String → Option String × Option String) (st : TState) :
    List InnerRun → SupOut
  | [] => ⟨[], st, .running, 0⟩
  | r :: rs =>
    let inner := runInner g { st with started := r.t0 } r.polls
    match r.outcome with
    | .cancel => ⟨inner.1, inner.2, .exited 0, cooldownPause⟩
    | .fault =>
      let rest := supervise g inner.2 rs
      ⟨inner.1 ++ rest.rows, rest.state, rest.result,
       cooldownPause + rest.pause⟩

/-- Number of inner runs the supervisor actually processes from a trace:
everything up to and including the first cancellation. -/
def processedRuns : List InnerRun → Nat
  | [] => 0
  | r :: rs =>
    match r.outcome with
    | .cancel => 1
    | .fault => 1 + processedRuns rs

/-- Chronology of a poll trace starting from a clock value `t`: the clock
values read by the loop are non-decreasing. -/
def pollsChron : Int → List Poll → Bool
  | _, [] => true
  | t, p :: ps =>
    decide (t ≤ p.tStop) && decide (p.tStop ≤ p.tReset) &&
      pollsChron p.tReset ps

/-- Singleton cache lookup of the `Neo` metaclass
(`kaamiki/utils/logger.py` lines 62-68): if the class has a cached
instance return it, otherwise construct one from the given arguments,
cache it and return it. -/
def neoCall {K A I : Type} [DecidableEq K] (construct : K → A → I)
    (instances : K → Option I) (cls : K) (args : A) :
    I × (K → Option I) :=
  match instances cls with
  | some inst => (inst, instances)
  | none =>
    let inst := construct cls args
    (inst, fun c => if c = cls then some inst else instances c)

/-- Adapter that knows no URLs: every program yields an empty observation
(the behaviour of `_get_active_url_on_posix`, lines 205-208). -/
def gNone : String → Option String × Option String := fun _ => (none, none)

/-- Adapter distinguishing two programs, used to exhibit which program the
URL lookup is performed with. -/
def g2 : String → Option String × Option String := fun s =>
  if s = "P1" then (some "u1", some "d1")
  else if s = "P2" then (some "u2", some "d2")
  else (none, none)

/-- Tracker state after window `W1` of program `P1` has been recorded. -/
def stW1 : TState :=
  { window := some "W1", program := some "P1", url := none, domain := none,
    lurl := none, ldomain := none, started := 0 }

/-- Focus change to `W1` observed with no elapsed time (clock still at 0). -/
def pollW1 : Poll := ⟨some "W1", some "P1", 0, 0, true⟩

/-- Focus change to `W1` observed after the clock advanced to 1. -/
def pollW1late : Poll := ⟨some "W1", some "P1", 1, 1, true⟩

/-- Focus change to `W2` at clock 2; `started` is re-read at clock 3. -/
def pollW2 : Poll := ⟨some "W2", some "P2", 2, 3, true⟩

/-- Focus change to `W3` at clock 5; `started` is re-read at clock 6. -/
def pollW3 : Poll := ⟨some "W3", some "P3", 5, 6, true⟩

/-- A poll observing the same window `W1` again (no focus change). -/
def pollSame : Poll := ⟨some "W1", some "P1", 7, 8, true⟩

/-- Focus change to `W2` whose CSV append hits write contention. -/
def pollBad : Poll := ⟨some "W2", some "P2", 2, 3, false⟩

/-- Inner run that records `W1` and then dies of an unhandled fault. -/
def runFault1 : InnerRun := ⟨0, [pollW1], .fault⟩

/-- Post-restart inner run: starts at clock 10 and sees `W2` at clock 12. -/
def runFault2 : InnerRun := ⟨10, [⟨some "W2", some "P2", 12, 12, true⟩], .fault⟩

/-- The row emitted by `step g2 stW1 pollW2`. -/
def rowE : Row :=
  { window := some "W1", program := some "P1", url := none, domain := none,
    started := 0, stopped := 2, spent := 2, days := 0, hours := 0,
    minutes := 0, seconds := 2 }

/-- The row emitted when `W2` gains focus 3723 seconds into `W1`. -/
def rowLong : Row :=
  { window := some "W1", program := some "P1", url := none, domain := none,
    started := 0, stopped := 3723, spent := 3723, days := 0, hours := 1,
    minutes := 2, seconds := 3 }

/-- Constructor used to instantiate the singleton model on `Nat`. -/
def addConstruct : Nat → Nat → Nat := fun k a => k + a

/-- An empty singleton cache on `Nat`. -/
def emptyCache : Nat → Option Nat := fun _ => none

/-- Reconstruction identity for the modelled `seconds_to_datetime`. -/
theorem secondsToDatetime_sum (n : Nat) :
    (secondsToDatetime n).1 * 86400 + (secondsToDatetime n).2.1 * 3600 +
      (secondsToDatetime n).2.2.1 * 60 + (secondsToDatetime n).2.2.2 = n := by
  simp only [secondsToDatetime]
  omega

/-- A cycle whose focus-change test fails leaves everything untouched. -/
theorem step_no_change (g : String → Option String × Option String)
    (st : TState) (p : Poll)
    (h : ¬(truthy p.window ∧ truthy p.program ∧ st.window ≠ p.window)) :
    step g st p = ([], st) := by
  unfold step
  rw [if_neg h]

/-- After a cycle, `last_window` is the observed window, unless the cycle
was a no-op (in which case the whole state is untouched). -/
theorem step_window (g : String → Option String × Option String)
    (st : TState) (p : Poll) :
    (step g st p).2.window = p.window ∨
      (step g st p = ([], st) ∧
        ¬(truthy p.window ∧ truthy p.program ∧ st.window ≠ p.window)) := by
  unfold step
  by_cases hc : truthy p.window ∧ truthy p.program ∧ st.window ≠ p.window
  · rw [if_pos hc]
    left
    by_cases hs : p.tStop - st.started = 0 <;> simp [hs]
  · rw [if_neg hc]
    exact Or.inr ⟨rfl, hc⟩

/-- The local `started` never moves backwards across a cycle, and never
beyond the clock value a cycle would reset it to. -/
theorem step_started_bounds (g : String → Option String × Option String)
    (st : TState) (p : Poll) (h1 : st.started ≤ p.tStop)
    (h2 : p.tStop ≤ p.tReset) :
    st.started ≤ (step g st p).2.started ∧
      (step g st p).2.started ≤ p.tReset := by
  unfold step
  by_cases hc : truthy p.window ∧ truthy p.program ∧ st.window ≠ p.window
  · rw [if_pos hc]
    by_cases hs : p.tStop - st.started = 0 <;> simp [hs] <;> omega
  · rw [if_neg hc]
    simp
    omega

/-- Any row a cycle emits starts at the pre-cycle `started`, stops at the
clock value read this cycle, and forces `started` to be re-read. -/
theorem step_out_rows (g : String → Option String × Option String)
    (st : TState) (p : Poll) :
    ∀ r ∈ (step g st p).1, r.started = st.started ∧ r.stopped = p.tStop ∧
      (step g st p).2.started = p.tReset := by
  unfold step
  by_cases hc : truthy p.window ∧ truthy p.program ∧ st.window ≠ p.window
  · rw [if_pos hc]
    by_cases hs : p.tStop - st.started = 0
    · simp [hs]
    · by_cases hw : p.writeOk <;> simp [hs, hw]
  · rw [if_neg hc]
    simp

/-- A cycle hands the recorder either nothing or exactly one row. -/
theorem step_out_shape (g : String → Option String × Option String)
    (st : TState) (p : Poll) :
    (step g st p).1 = [] ∨ ∃ r, (step g st p).1 = [r] := by
  unfold step
  by_cases hc : truthy p.window ∧ truthy p.program ∧ st.window ≠ p.window
  · rw [if_pos hc]
    by_cases hs : p.tStop - st.started = 0
    · simp [hs]
    · by_cases hw : p.writeOk <;> simp [hs, hw]
  · rw [if_neg hc]
    simp

/-- Chronology is preserved when the starting clock value is lowered. -/
theorem pollsChron_mono {s t : Int} (ps : List Poll) (hst : s ≤ t)
    (h : pollsChron t ps = true) : pollsChron s ps = true := by
  cases ps with
  | nil => simp [pollsChron]
  | cons p ps =>
    simp only [pollsChron, Bool.and_eq_true, decide_eq_true_eq] at h ⊢
    exact ⟨⟨le_trans hst h.1.1, h.1.2⟩, h.2⟩

/-- Main ordering invariant of the inner loop: under a chronological clock,
every emitted row starts no earlier than the entry `started`, every row
stops no earlier than it starts, consecutive rows do not overlap, and the
final `started` never moves backwards. -/
theorem runInner_chron (g : String → Option String × Option String) :
    ∀ (polls : List Poll) (st : TState),
    pollsChron st.started polls = true →
    (∀ r ∈ (runInner g st polls).1,
        st.started ≤ r.started ∧ r.started ≤ r.stopped) ∧
      st.started ≤ (runInner g st polls).2.started ∧
      List.Chain' (fun a b => a.stopped ≤ b.started)
        (runInner g st polls).1
  | [], st, _ => by simp [runInner, List.Chain']
  | p :: ps, st, h => by
    simp only [pollsChron, Bool.and_eq_true, decide_eq_true_eq] at h
    obtain ⟨⟨h1, h2⟩, h3⟩ := h
    have hb := step_started_bounds g st p h1 h2
    have hchron : pollsChron (step g st p).2.started ps = true :=
      pollsChron_mono ps hb.2 h3
    obtain ⟨ihMem, ihStart, ihChain⟩ := runInner_chron g ps (step g st p).2 hchron
    have hrun : runInner g st (p :: ps) =
        ((step g st p).1 ++ (runInner g (step g st p).2 ps).1,
         (runInner g (step g st p).2 ps).2) := rfl
    rw [hrun]
    refine ⟨?_, ?_, ?_⟩
    · intro r hr
      rcases List.mem_append.mp hr with hm | hm
      · obtain ⟨e1, e2, _⟩ := step_out_rows g st p r hm
        constructor
        · omega
        · omega
      · obtain ⟨a1, a2⟩ := ihMem r hm
        exact ⟨le_trans hb.1 a1, a2⟩
    · exact le_trans hb.1 ihStart
    · rcases step_out_shape g st p with he | ⟨r, he⟩
      · rw [he]
        simpa using ihChain
      · rw [he]
        cases hrest : (runInner g (step g st p).2 ps).1 with
        | nil => simp
        | cons b bs =>
          rw [List.singleton_append, List.chain'_cons']
          constructor
          · intro y hy
            simp only [List.head?_cons, Option.mem_def, Option.some.injEq] at hy
            obtain ⟨_, e2, e3⟩ := step_out_rows g st p r
              (by rw [he]; exact List.mem_singleton_self r)
            have hbmem : b ∈ (runInner g (step g st p).2 ps).1 := by
              rw [hrest]
              exact List.mem_cons_self b bs
            have hba := (ihMem b hbmem).1
            rw [e3] at hba
            subst hy
            omega
          · rw [← hrest]
            exact ihChain

/-- Characterisation of an emitting cycle: the row handed to the recorder
is built from the PREVIOUS state's window/program/url/domain plus the
computed timestamps, and the new state stores the URL observation fetched
for the newly observed program. -/
theorem step_emit (g : String → Option String × Option String)
    (st : TState) (p : Poll) (r : Row) (h : (step g st p).1 = [r]) :
    r = { window := st.window, program := st.program, url := st.url,
          domain := st.domain, started := st.started, stopped := p.tStop,
          spent := p.tStop - st.started,
          days := (secondsToDatetime (p.tStop - st.started).toNat).1,
          hours := (secondsToDatetime (p.tStop - st.started).toNat).2.1,
          minutes := (secondsToDatetime (p.tStop - st.started).toNat).2.2.1,
          seconds :=
            (secondsToDatetime (p.tStop - st.started).toNat).2.2.2 } ∧
    (step g st p).2 =
      { window := p.window, program := p.program,
        url := (g (p.program.getD "")).1,
        domain := (g (p.program.getD "")).2,
        lurl := (g (p.program.getD "")).1,
        ldomain := (g (p.program.getD "")).2, started := p.tReset } := by
  unfold step at h ⊢
  by_cases hc : truthy p.window ∧ truthy p.program ∧ st.window ≠ p.window
  · rw [if_pos hc] at h ⊢
    by_cases hs : p.tStop - st.started = 0
    · simp [hs] at h
    · by_cases hw : p.writeOk
      · simp [hs, hw] at h ⊢
        exact h.symm
      · simp [hs, hw] at h
  · rw [if_neg hc] at h
    simp at h

/-- C1: evaluation of the code at the failing input.  The inner loop is
entered with `started = now() = 0` and the very first focus change
(`W1`/`P1`) is detected with `now() = 1`, so `seconds_spent = 1 ≠ 0`, the
zero-sentinel guard does not fire, and the first observation DOES produce
an emitted interval — a row whose window, program, url and domain are all
empty.  This contradicts the claim (and the code's own comments, which say
the first record's elapsed time is always 0 and that no null entries are
added to the CSV sheet). -/
theorem c1_first_record_emitted :
    (runInner gNone initState [pollW1late]).1 =
      [{ window := none, program := none, url := none, domain := none,
         started := 0, stopped := 1, spent := 1, days := 0, hours := 0,
         minutes := 0, seconds := 1 }] := by decide

/-- C2 counterexample: after the suppressed first change records `P1`, the
interval that closes at the next change belongs to program `P1`, yet the
URL observation stored at that close is `g2 "P2"` — the adapter was called
with the NEWLY focused program, not with the program of the closing
interval as the claim states. -/
theorem c2_url_uses_new_program_cex :
    (runInner g2 initState [pollW1, pollW2]).2.program = some "P2" ∧
    (runInner g2 initState [pollW1]).2.program = some "P1" ∧
    (g2 "P1").1 = some "u1" ∧ (g2 "P2").1 = some "u2" ∧
    (runInner g2 initState [pollW1, pollW2]).2.url = some "u2" ∧
    (runInner g2 initState [pollW1, pollW2]).2.url ≠ (g2 "P1").1 := by
  decide

/-- C2 amended: whenever a focus change closes an interval with non-zero
elapsed time, `observe_active_url` is called with the newly focused
program returned by the current poll (line 253 passes the loop-local
`program`, not `self._program`), and its result becomes the pending
url/domain of the new state. -/
theorem c2_amended_url_from_new_program
    (g : String → Option String × Option String) (st : TState) (p : Poll)
    (hw : truthy p.window) (hp : truthy p.program)
    (hne : st.window ≠ p.window) (hs : p.tStop - st.started ≠ 0) :
    (step g st p).2.url = (g (p.program.getD "")).1 ∧
    (step g st p).2.domain = (g (p.program.getD "")).2 := by
  unfold step
  rw [if_pos ⟨hw, hp, hne⟩]
  simp [hs]

/-- C2 amended, witnessed at a concrete input: closing the `P1` interval
while `P2` gains focus stores `g2 "P2"` as the pending URL observation. -/
theorem c2_amended_witness :
    (truthy pollW2.window ∧ truthy pollW2.program ∧
      stW1.window ≠ pollW2.window ∧ pollW2.tStop - stW1.started ≠ 0) ∧
    ((step g2 stW1 pollW2).2.url = (g2 (pollW2.program.getD "")).1 ∧
     (step g2 stW1 pollW2).2.domain = (g2 (pollW2.program.getD "")).2) :=
  ⟨by decide, c2_amended_url_from_new_program g2 stW1 pollW2 (by decide)
    (by decide) (by decide) (by decide)⟩

/-- C3 counterexample: lines 223-224 run once, before the outer loop, so a
restart after an unhandled fault does NOT reset the tracker state.  Run 1
records window `W1` and faults; after the restart the very next emitted
interval carries the pre-fault values (`window = W1`, `program = P1`) in
its row — contradicting the claim that no interval emitted after a restart
references any pre-fault `TrackerState` value. -/
theorem c3_state_not_reset_cex :
    (runInner g2 { initState with started := 0 } [pollW1]).2.window =
      some "W1" ∧
    (supervise g2 initState [runFault1, runFault2]).rows =
      [{ window := some "W1", program := some "P1", url := none,
         domain := none, started := 10, stopped := 12, spent := 2,
         days := 0, hours := 0, minutes := 0, seconds := 2 }] := by
  decide

/-- C3 amended: when an inner run ends in an unhandled fault, the
supervisor resumes with exactly the tracker state left by the faulting
run — `last_window`, `last_program`, `last_url`, `last_domain` and the
pending locals all retained — and only the interval start time is
re-initialised (each run re-reads `started = now()`, line 231).  The
in-flight interval is lost, but subsequent rows may reference pre-fault
state values. -/
theorem c3_amended_state_retained
    (g : String → Option String × Option String) (st : TState)
    (r : InnerRun) (rs : List InnerRun) (h : r.outcome = Outcome.fault) :
    (supervise g st (r :: rs)).rows =
      (runInner g { st with started := r.t0 } r.polls).1 ++
        (supervise g (runInner g { st with started := r.t0 } r.polls).2
          rs).rows ∧
    (supervise g st (r :: rs)).state =
      (supervise g (runInner g { st with started := r.t0 } r.polls).2
        rs).state := by
  simp [supervise, h]

/-- C3 amended, witnessed on the concrete two-run fault trace. -/
theorem c3_amended_witness :
    runFault1.outcome = Outcome.fault ∧
    ((supervise g2 initState (runFault1 :: [runFault2])).rows =
      (runInner g2 { initState with started := runFault1.t0 }
          runFault1.polls).1 ++
        (supervise g2
          (runInner g2 { initState with started := runFault1.t0 }
            runFault1.polls).2 [runFault2]).rows ∧
     (supervise g2 initState (runFault1 :: [runFault2])).state =
      (supervise g2
        (runInner g2 { initState with started := runFault1.t0 }
          runFault1.polls).2 [runFault2]).state) :=
  ⟨rfl, c3_amended_state_retained g2 initState runFault1 [runFault2] rfl⟩

/-- C4: a cycle whose observation has an empty window, an empty program,
or a window equal to the recorded `last_window` emits nothing and leaves
the state untouched (the result does not depend on the URL adapter, so no
URL lookup is observable); consequently, of any two consecutive identical
observations at most the first is acted upon. -/
theorem c4_no_change_no_effect
    (g : String → Option String × Option String) (st : TState)
    (p q : Poll) :
    ((¬truthy p.window ∨ ¬truthy p.program ∨ st.window = p.window) →
      step g st p = ([], st)) ∧
    (q.window = p.window → q.program = p.program →
      step g (step g st p).2 q = ([], (step g st p).2)) := by
  constructor
  · intro h
    apply step_no_change
    tauto
  · intro hw hp
    rcases step_window g st p with hwin | ⟨heq, hc⟩
    · apply step_no_change
      rw [hw, hwin]
      tauto
    · rw [heq]
      apply step_no_change
      rw [hw, hp]
      simpa using hc

/-- C4, witnessed: observing `W1` again while `last_window = W1` is a
no-op, on the first and on a repeated identical observation. -/
theorem c4_witness :
    (¬truthy pollSame.window ∨ ¬truthy pollSame.program ∨
      stW1.window = pollSame.window) ∧
    step gNone stW1 pollSame = ([], stW1) ∧
    step gNone (step gNone stW1 pollSame).2 pollSame =
      ([], (step gNone stW1 pollSame).2) :=
  ⟨by decide,
   (c4_no_change_no_effect gNone stW1 pollSame pollSame).1 (by decide),
   (c4_no_change_no_effect gNone stW1 pollSame pollSame).2 rfl rfl⟩

/-- C5: under a chronological clock, the rows handed to the recorder are
emitted in order — each row stops no earlier than it starts, and each
consecutive pair `I_k, I_{k+1}` satisfies
`I_k.stopped ≤ I_{k+1}.started` (no overlap, never out of order). -/
theorem c5_non_overlap (g : String → Option String × Option String)
    (st : TState) (polls : List Poll)
    (h : pollsChron st.started polls = true) :
    List.Chain' (fun a b => a.stopped ≤ b.started)
      (runInner g st polls).1 ∧
    ∀ r ∈ (runInner g st polls).1, r.started ≤ r.stopped := by
  obtain ⟨hm, _, hc⟩ := runInner_chron g polls st h
  exact ⟨hc, fun r hr => (hm r hr).2⟩

/-- C5, witnessed on a concrete chronological two-change trace. -/
theorem c5_witness :
    pollsChron initState.started [pollW1late, pollW2] = true ∧
    (List.Chain' (fun a b => a.stopped ≤ b.started)
        (runInner g2 initState [pollW1late, pollW2]).1 ∧
      ∀ r ∈ (runInner g2 initState [pollW1late, pollW2]).1,
        r.started ≤ r.stopped) :=
  ⟨by decide, c5_non_overlap g2 initState [pollW1late, pollW2] (by decide)⟩

/-- C6: every row handed to the recorder carries the pending
`last_url`/`last_domain` of the interval that closed one focus-change
earlier (lines 255-263 write `self._url`/`self._domain`), while the URL
observation fetched at this close is only stored into the state
(lines 252-253 and 270-271) and will be written into the next closing
interval's row — the one-interval lag. -/
theorem c6_url_one_interval_lag (g : String → Option String × Option String)
    (st : TState) (p : Poll) (r : Row) (h : (step g st p).1 = [r]) :
    r.url = st.url ∧ r.domain = st.domain ∧
    (step g st p).2.url = (g (p.program.getD "")).1 ∧
    (step g st p).2.domain = (g (p.program.getD "")).2 := by
  obtain ⟨hr, hst⟩ := step_emit g st p r h
  subst hr
  rw [hst]
  exact ⟨rfl, rfl, rfl, rfl⟩

/-- C6, witnessed: the interval closed by `pollW2` is written with the
pending empty url/domain, while `g2 "P2"` becomes the new pending pair. -/
theorem c6_witness :
    (step g2 stW1 pollW2).1 = [rowE] ∧
    (rowE.url = stW1.url ∧ rowE.domain = stW1.domain ∧
     (step g2 stW1 pollW2).2.url = (g2 (pollW2.program.getD "")).1 ∧
     (step g2 stW1 pollW2).2.domain = (g2 (pollW2.program.getD "")).2) :=
  ⟨by decide, c6_url_one_interval_lag g2 stW1 pollW2 rowE (by decide)⟩

/-- C7: the supervised loop never terminates on its own — over any finite
trace it is either still running or has exited with status 0; it exits
exactly when some inner run ends in an explicit cancellation
(`KeyboardInterrupt`, lines 274-276), every fault merely restarting the
inner loop; and each processed run is followed by the fixed
`cooldownPause` (the `finally: time.sleep(5.0)` on line 280). -/
theorem c7_supervisor_behavior (g : String → Option String × Option String)
    (st : TState) (runs : List InnerRun) :
    ((supervise g st runs).result = SupResult.running ∨
      (supervise g st runs).result = SupResult.exited 0) ∧
    ((supervise g st runs).result = SupResult.exited 0 ↔
      ∃ r ∈ runs, r.outcome = Outcome.cancel) ∧
    (supervise g st runs).pause =
      cooldownPause * (processedRuns runs : Int) := by
  induction runs generalizing st with
  | nil => simp [supervise, processedRuns]
  | cons r rs ih =>
    obtain ⟨ih1, ih2, ih3⟩ :=
      ih (runInner g { st with started := r.t0 } r.polls).2
    cases ho : r.outcome with
    | cancel =>
      simp [supervise, processedRuns, ho]
    | fault =>
      simp only [supervise, processedRuns, ho]
      refine ⟨ih1, ?_, ?_⟩
      · rw [ih2]
        simp [ho]
      · rw [ih3]
        push_cast
        ring

/-- C8: when the CSV append hits write contention (`PermissionError`,
caught on line 264), exactly that one row is dropped — nothing is emitted
that cycle, the tracker state is nevertheless updated exactly as on a
successful write (the assignments on lines 266-271 still run), and the
rest of the run proceeds identically, so subsequent intervals are emitted
normally. -/
theorem c8_contention_drop_one
    (g : String → Option String × Option String) (st : TState) (p : Poll)
    (ps : List Poll) (h : p.writeOk = false) :
    (step g st p).1 = [] ∧
    (step g st p).2 = (step g st { p with writeOk := true }).2 ∧
    (runInner g st ({ p with writeOk := true } :: ps)).1 =
      (step g st { p with writeOk := true }).1 ++
        (runInner g st (p :: ps)).1 ∧
    (runInner g st (p :: ps)).2 =
      (runInner g st ({ p with writeOk := true } :: ps)).2 := by
  obtain ⟨pw, pp, pts, ptr, pwo⟩ := p
  simp only at h
  subst h
  have e1 : (step g st ⟨pw, pp, pts, ptr, false⟩).1 = [] := by
    unfold step
    by_cases hc : truthy pw ∧ truthy pp ∧ st.window ≠ (pw : Option String)
    · rw [if_pos hc]
      by_cases hs : pts - st.started = 0 <;> simp [hs]
    · rw [if_neg hc]
  have e2 : (step g st ⟨pw, pp, pts, ptr, false⟩).2 =
      (step g st ⟨pw, pp, pts, ptr, true⟩).2 := by
    unfold step
    by_cases hc : truthy pw ∧ truthy pp ∧ st.window ≠ (pw : Option String)
    · rw [if_pos hc, if_pos hc]
      by_cases hs : pts - st.started = 0 <;> simp [hs]
    · rw [if_neg hc, if_neg hc]
  refine ⟨e1, e2, ?_, ?_⟩
  · simp only [runInner]
    rw [e1, ← e2]
    simp
  · simp only [runInner]
    rw [← e2]

/-- C8, witnessed: a contention-hit close of the `W1` interval drops that
one row yet leaves the run's subsequent behaviour identical. -/
theorem c8_witness :
    pollBad.writeOk = false ∧
    ((step g2 stW1 pollBad).1 = [] ∧
     (step g2 stW1 pollBad).2 =
       (step g2 stW1 { pollBad with writeOk := true }).2 ∧
     (runInner g2 stW1 ({ pollBad with writeOk := true } :: [pollW3])).1 =
       (step g2 stW1 { pollBad with writeOk := true }).1 ++
         (runInner g2 stW1 (pollBad :: [pollW3])).1 ∧
     (runInner g2 stW1 (pollBad :: [pollW3])).2 =
       (runInner g2 stW1 ({ pollBad with writeOk := true } :: [pollW3])).2) :=
  ⟨rfl, c8_contention_drop_one g2 stW1 pollBad [pollW3] rfl⟩

/-- C9: every emitted row's duration decomposition reconstructs its
elapsed seconds — for a row with non-negative `spent`,
`days*86400 + hours*3600 + minutes*60 + seconds = spent` exactly (the
four fields are natural numbers, hence non-negative by construction). -/
theorem c9_decomposition (g : String → Option String × Option String)
    (st : TState) (p : Poll) (r : Row) (h1 : (step g st p).1 = [r])
    (h2 : 0 ≤ r.spent) :
    (r.days * 86400 + r.hours * 3600 + r.minutes * 60 + r.seconds : Int) =
      r.spent := by
  obtain ⟨hr, -⟩ := step_emit g st p r h1
  subst hr
  simp only [secondsToDatetime] at h2 ⊢
  push_cast
  omega

/-- C9, witnessed on a 3723-second interval (0 d, 1 h, 2 min, 3 s). -/
theorem c9_witness :
    ((step gNone stW1 ⟨some "W2", some "P2", 3723, 3724, true⟩).1 =
        [rowLong] ∧ 0 ≤ rowLong.spent) ∧
    (rowLong.days * 86400 + rowLong.hours * 3600 + rowLong.minutes * 60 +
        rowLong.seconds : Int) = rowLong.spent :=
  ⟨⟨by decide, by decide⟩,
   c9_decomposition gNone stW1 ⟨some "W2", some "P2", 3723, 3724, true⟩
     rowLong (by decide) (by decide)⟩

/-- C10: the `Neo` metaclass is a singleton cache — starting from a class
with no cached instance, the first instantiation constructs the instance
from its arguments and caches it, and a second instantiation returns the
very same cached instance and leaves the cache unchanged, its own
constructor arguments having no effect. -/
theorem c10_neo_singleton {K A I : Type} [DecidableEq K]
    (construct : K → A → I) (instances : K → Option I) (cls : K)
    (a₁ a₂ : A) (h : instances cls = none) :
    (neoCall construct instances cls a₁).1 = construct cls a₁ ∧
    (neoCall construct instances cls a₁).2 cls =
      some (construct cls a₁) ∧
    (neoCall construct (neoCall construct instances cls a₁).2 cls a₂).1 =
      (neoCall construct instances cls a₁).1 ∧
    (neoCall construct (neoCall construct instances cls a₁).2 cls a₂).2 =
      (neoCall construct instances cls a₁).2 := by
  simp [neoCall, h]

/-- C10, witnessed on a concrete `Nat`-keyed cache: the second
instantiation with different arguments returns the first instance. -/
theorem c10_witness :
    emptyCache 0 = none ∧
    ((neoCall addConstruct emptyCache 0 1).1 = addConstruct 0 1 ∧
     (neoCall addConstruct emptyCache 0 1).2 0 =
       some (addConstruct 0 1) ∧
     (neoCall addConstruct (neoCall addConstruct emptyCache 0 1).2 0 2).1 =
       (neoCall addConstruct emptyCache 0 1).1 ∧
     (neoCall addConstruct (neoCall addConstruct emptyCache 0 1).2 0 2).2 =
       (neoCall addConstruct emptyCache 0 1).2) :=
  ⟨rfl, c10_neo_singleton addConstruct emptyCache 0 1 2 rfl⟩

end Kaamiki
